import Mathlib

/-!
Verification of the exFAT read-only parser (losynix/exfat).

This file shallowly embeds the parts of the source that the verified
properties speak about:

* `src/fat.rs` — the FAT as a vector of 32-bit entries and the
  `ClusterChain` iterator (`Iterator::next`, lines 71–84), plus the
  checked offset arithmetic of `Fat::load` (lines 17–28).
* `src/entries.rs` — `EntryType`, `SecondaryFlags`,
  `ClusterAllocation::load`, `StreamEntry::load` and the name-assembly
  part of `FileEntry::load`.
* `src/lib.rs` — the allocation-bitmap dispatch step of `Root::open`
  (lines 132–160) and `FileAttributes`.

Machine integers are modelled as `Nat`; u8/u16/u32/u64 fields are the
little-endian values decoded from the raw 32-byte entry, exactly as the
source computes them with `byteorder::LE`.  Fallible operations return
`Except` with error types mirroring the source enums (payloads that
carry only an I/O cause are dropped, since the block source is external
to the embedding).
-/

namespace Exfat

/-! ## Little-endian field decoding (`byteorder::LE` on the raw 32 bytes) -/

/-- Little-endian u16 at byte offset `off` of a raw entry. -/
def le16 (data : List Nat) (off : Nat) : Nat :=
  data.getD off 0 + 256 * data.getD (off + 1) 0

/-- Little-endian u32 at byte offset `off` of a raw entry. -/
def le32 (data : List Nat) (off : Nat) : Nat :=
  data.getD off 0 + 256 * data.getD (off + 1) 0 +
    256 ^ 2 * data.getD (off + 2) 0 + 256 ^ 3 * data.getD (off + 3) 0

/-- Little-endian u64 at byte offset `off` of a raw entry. -/
def le64 (data : List Nat) (off : Nat) : Nat :=
  data.getD off 0 + 256 * data.getD (off + 1) 0 +
    256 ^ 2 * data.getD (off + 2) 0 + 256 ^ 3 * data.getD (off + 3) 0 +
    256 ^ 4 * data.getD (off + 4) 0 + 256 ^ 5 * data.getD (off + 5) 0 +
    256 ^ 6 * data.getD (off + 6) 0 + 256 ^ 7 * data.getD (off + 7) 0

/-! ## `src/fat.rs`: the cluster-chain iterator

`ClusterChain` holds a slice of FAT entries and a `next` index; its
`Iterator::next` (src/fat.rs:71–84) stops on `next < 2`,
`next >= entries.len()` or `entries[next] == 0xfffffff7`, and otherwise
yields `next` and moves the state to `entries[next]`. -/

/-- The stop condition of `ClusterChain::next` (src/fat.rs:76). -/
def chainStops (entries : List Nat) (next : Nat) : Bool :=
  decide (next < 2) || decide (entries.length ≤ next) ||
    decide (entries.getD next 0 = 4294967287)

/-- One call of `ClusterChain::next` (src/fat.rs:71–84): given the
current `next` state, return `none` (iteration over) or the yielded
cluster index together with the updated state `entries[next]`. -/
def chainNext (entries : List Nat) (next : Nat) : Option (Nat × Nat) :=
  if chainStops entries next then none
  else some (next, entries.getD next 0)

/-- The `next` field of the iterator after `n` calls, starting from the
state installed by `Fat::get_cluster_chain(first)` (src/fat.rs:55–60).
A call that returns `None` leaves the state unchanged. -/
def chainState (entries : List Nat) (first : Nat) : Nat → Nat
  | 0 => first
  | n + 1 =>
    match chainNext entries (chainState entries first n) with
    | some (_, s) => s
    | none => chainState entries first n

/-- The value produced by the `n`-th call of the iterator. -/
def chainOutput (entries : List Nat) (first : Nat) (n : Nat) : Option Nat :=
  (chainNext entries (chainState entries first n)).map Prod.fst

/-- The iteration terminates: some call returns `None`. -/
def chainFinite (entries : List Nat) (first : Nat) : Prop :=
  ∃ n, chainStops entries (chainState entries first n) = true

theorem chainStops_iff (entries : List Nat) (next : Nat) :
    chainStops entries next = true ↔
      next < 2 ∨ entries.length ≤ next ∨ entries.getD next 0 = 4294967287 := by
  simp [chainStops, or_assoc]

/-- C4: every call of `ClusterChain::next` returns `None` exactly when
the current index is `< 2`, `≥` the FAT length, or its FAT entry is the
bad-cluster sentinel `0xFFFFFFF7`; any yielded cluster index is `≥ 2`
and `<` the FAT length (so indices 0 and 1 are never yielded, at any
step of any run). -/
theorem cluster_chain_step_sound (entries : List Nat) (next : Nat) :
    (chainNext entries next = none ↔
        next < 2 ∨ entries.length ≤ next ∨ entries.getD next 0 = 4294967287)
    ∧ (∀ v s, chainNext entries next = some (v, s) →
        2 ≤ v ∧ v < entries.length ∧ s = entries.getD v 0)
    ∧ (∀ first n v, chainOutput entries first n = some v →
        2 ≤ v ∧ v < entries.length) := by
  refine ⟨?_, ?_, ?_⟩
  · unfold chainNext
    split
    · simpa [chainStops_iff entries next] using ‹chainStops entries next = true›
    · have h := ‹¬ chainStops entries next = true›
      rw [chainStops_iff] at h
      simp only [reduceCtorEq, false_iff]
      exact h
  · intro v s h
    unfold chainNext at h
    split at h
    · exact absurd h (by simp)
    · have hns := ‹¬ chainStops entries next = true›
      rw [chainStops_iff] at hns
      push_neg at hns
      obtain ⟨rfl, rfl⟩ : next = v ∧ entries.getD next 0 = s := by
        simpa using h
      exact ⟨by omega, by omega, rfl⟩
  · intro first n v h
    unfold chainOutput at h
    cases hc : chainNext entries (chainState entries first n) with
    | none => rw [hc] at h; simp at h
    | some p =>
      rw [hc] at h
      simp at h
      unfold chainNext at hc
      split at hc
      · exact absurd hc (by simp)
      · have hns := ‹¬ chainStops entries (chainState entries first n) = true›
        rw [chainStops_iff] at hns
        push_neg at hns
        have : chainState entries first n = p.1 := by
          simpa using congrArg (fun q => Prod.fst q) (Option.some.inj hc)
        subst h
        constructor
        · omega
        · omega

/-- C4 witness: at a concrete FAT, a step at an in-range index with a
non-sentinel entry yields that index. -/
theorem cluster_chain_step_sound_witness :
    2 ≤ 2 ∧ 2 < [0, 0, 9].length ∧ 9 = [0, 0, 9].getD 2 0 :=
  (cluster_chain_step_sound [0, 0, 9] 2).2.1 2 9 (by decide)

/-- C3 (amended): if `2 ≤ first < entries.length` and the FAT entry at
`first` is not the bad-cluster sentinel, the first call of the iterator
yields `first` itself. -/
theorem cluster_chain_starts_at_first (entries : List Nat) (first : Nat)
    (h2 : 2 ≤ first) (hlen : first < entries.length)
    (hbad : entries.getD first 0 ≠ 4294967287) :
    chainOutput entries first 0 = some first := by
  unfold chainOutput chainState chainNext
  rw [if_neg]
  · rfl
  · rw [chainStops_iff]
    push_neg
    exact ⟨by omega, by omega, hbad⟩

/-- C3 witness: on the FAT `[0, 0, 0]` the chain started at 2 yields 2
first. -/
theorem cluster_chain_starts_at_first_witness :
    chainOutput [0, 0, 0] 2 0 = some 2 :=
  cluster_chain_starts_at_first [0, 0, 0] 2 (by decide) (by decide) (by decide)

/-- C3 counterexample: `first = 2` is in range on the FAT
`[0, 0, 0xFFFFFFF7]`, yet the first call yields nothing (the claim says
it yields `first` regardless of the FAT entry values). -/
theorem cluster_chain_starts_at_first_cex :
    2 < [0, 0, 4294967287].length ∧ chainOutput [0, 0, 4294967287] 2 0 = none := by
  constructor
  · decide
  · decide

/-- On the FAT `[0, 0, 2]` the state of the chain started at 2 is 2
forever: entry 2 links back to cluster 2. -/
theorem chainState_self_loop (n : Nat) : chainState [0, 0, 2] 2 n = 2 := by
  induction n with
  | zero => rfl
  | succ k ih =>
    unfold chainState
    rw [ih]
    decide

/-- C1 counterexample: on the FAT `[0, 0, 2]` (cluster 2 links to
itself) the iterator started at 2 never stops — every call yields
cluster 2 and none returns `None`, so the sequence is not finite. -/
theorem cluster_chain_cycle_diverges : ¬ chainFinite [0, 0, 2] 2 := by
  rintro ⟨n, hn⟩
  rw [chainState_self_loop n] at hn
  exact absurd hn (by decide)

/-- C1 (amended): the iterator is finite whenever the visited states do
not repeat before termination, i.e. whenever the FAT links reachable
from `first` are acyclic.  The proof is by pigeonhole: a run that never
stops keeps every state inside `[2, entries.length)`, so within
`entries.length + 1` steps two states coincide. -/
theorem cluster_chain_finite_of_no_cycle (entries : List Nat) (first : Nat)
    (h : ∀ n, n ≤ entries.length → ∀ m, m < n →
      (∀ k, k < n → ¬ chainStops entries (chainState entries first k) = true) →
      chainState entries first m ≠ chainState entries first n) :
    chainFinite entries first := by
  by_contra hfin
  have hns : ∀ n, ¬ chainStops entries (chainState entries first n) = true :=
    fun n hc => hfin ⟨n, hc⟩
  have hmem : ∀ n, chainState entries first n ∈ Finset.Ico 2 entries.length := by
    intro n
    have hn := hns n
    rw [chainStops_iff] at hn
    push_neg at hn
    exact Finset.mem_Ico.mpr ⟨by omega, by omega⟩
  obtain ⟨a, ha, b, hb, hab, heq⟩ :=
    Finset.exists_ne_map_eq_of_card_lt_of_maps_to
      (f := fun n => chainState entries first n)
      (s := Finset.range (entries.length + 1)) (t := Finset.Ico 2 entries.length)
      (by rw [Finset.card_range, Nat.card_Ico]; omega)
      (fun a _ => hmem a)
  have ha' : a ≤ entries.length := Nat.lt_succ_iff.mp (Finset.mem_range.mp ha)
  have hb' : b ≤ entries.length := Nat.lt_succ_iff.mp (Finset.mem_range.mp hb)
  rcases Nat.lt_or_ge a b with hlt | hge
  · exact h b hb' a hlt (fun k _ => hns k) heq
  · have hgt : b < a := by omega
    exact h a ha' b hgt (fun k _ => hns k) heq.symm

/-- C1 witness: on the acyclic FAT `[0, 0, 0]` started at 2 (cluster 2
links to 0, which terminates) the no-repeat hypothesis holds and the
chain is finite. -/
theorem cluster_chain_finite_of_no_cycle_witness : chainFinite [0, 0, 0] 2 :=
  cluster_chain_finite_of_no_cycle [0, 0, 0] 2 (by decide)

/-! ## `src/entries.rs`: raw entries, entry types and flags -/

/-- `RawEntry` (src/entries.rs:52–56): 32 data bytes annotated with the
originating cluster and the entry position within it. -/
structure RawEntry where
  index : Nat
  cluster : Nat
  data : List Nat

/-- `EntryType::is_regular` (src/entries.rs:271): the type byte is
`≥ 0x81`. -/
def EntryType.is_regular (b : Nat) : Bool :=
  decide (129 ≤ b)

/-- `EntryType::type_code` (src/entries.rs:275): `byte & 0x1f`. -/
def EntryType.type_code (b : Nat) : Nat :=
  b &&& 31

/-- `EntryType::type_importance` (src/entries.rs:279):
`(byte & 0x20) >> 5`. -/
def EntryType.type_importance (b : Nat) : Nat :=
  (b &&& 32) >>> 5

/-- `EntryType::type_category` (src/entries.rs:283):
`(byte & 0x40) >> 6`. -/
def EntryType.type_category (b : Nat) : Nat :=
  (b &&& 64) >>> 6

/-- `EntryType::is_critical_secondary` (src/entries.rs:287–292):
regular, critical importance (0), secondary category (1), given code. -/
def EntryType.is_critical_secondary (b : Nat) (code : Nat) : Bool :=
  EntryType.is_regular b && decide (EntryType.type_importance b = 0) &&
    decide (EntryType.type_category b = 1) && decide (EntryType.type_code b = code)

/-- `SecondaryFlags::allocation_possible` (src/entries.rs:323): bit 0. -/
def SecondaryFlags.allocation_possible (flags : Nat) : Bool :=
  decide (flags &&& 1 ≠ 0)

/-- `SecondaryFlags::no_fat_chain` (src/entries.rs:327): bit 1. -/
def SecondaryFlags.no_fat_chain (flags : Nat) : Bool :=
  decide (flags &&& 2 ≠ 0)

/-- `FileAttributes::is_directory` (src/lib.rs:285): bit 0x0010. -/
def FileAttributes.is_directory (attrs : Nat) : Bool :=
  decide (attrs &&& 16 ≠ 0)

/-! ## `ClusterAllocation::load` (src/entries.rs:340–359) -/

/-- `ClusterAllocationError` (src/entries.rs:415–422). -/
inductive ClusterAllocationError where
  | InvalidFirstCluster
  | InvalidDataLength
deriving DecidableEq

/-- `ClusterAllocation` (src/entries.rs:334–337): `FirstCluster` and
`DataLength` of a directory entry. -/
structure ClusterAllocation where
  first_cluster : Nat
  data_length : Nat
deriving DecidableEq

/-- `ClusterAllocation::load` (src/entries.rs:340–359): decode
`FirstCluster` (LE u32 at offset 20) and `DataLength` (LE u64 at offset
24); `first_cluster = 0` demands `data_length = 0`, `first_cluster = 1`
is reserved, everything else is accepted. -/
def ClusterAllocation.load (entry : RawEntry) :
    Except ClusterAllocationError ClusterAllocation :=
  let data := entry.data
  let first_cluster := le32 data 20
  let data_length := le64 data 24
  if first_cluster = 0 then
    if data_length ≠ 0 then .error .InvalidDataLength
    else .ok ⟨first_cluster, data_length⟩
  else if first_cluster < 2 then .error .InvalidFirstCluster
  else .ok ⟨first_cluster, data_length⟩

/-- C7: `ClusterAllocation::load` fails with `InvalidDataLength` iff the
decoded `first_cluster` is 0 while `data_length` is nonzero, fails with
`InvalidFirstCluster` iff `first_cluster` is 1, and in every other case
returns exactly the little-endian u32 at offset 20 and the little-endian
u64 at offset 24. -/
theorem cluster_allocation_load_spec (entry : RawEntry) :
    (ClusterAllocation.load entry = .error .InvalidDataLength ↔
        le32 entry.data 20 = 0 ∧ le64 entry.data 24 ≠ 0)
    ∧ (ClusterAllocation.load entry = .error .InvalidFirstCluster ↔
        le32 entry.data 20 = 1)
    ∧ (¬ (le32 entry.data 20 = 0 ∧ le64 entry.data 24 ≠ 0) →
        le32 entry.data 20 ≠ 1 →
        ClusterAllocation.load entry = .ok ⟨le32 entry.data 20, le64 entry.data 24⟩) := by
  simp only [ClusterAllocation.load]
  refine ⟨?_, ?_, ?_⟩
  · split
    · split
      · simp_all
      · simp_all
    · split
      · simp_all
      · simp_all
  · split
    · split
      · simp_all
      · simp
        omega
    · split
      · have := ‹¬ le32 entry.data 20 = 0›
        have := ‹le32 entry.data 20 < 2›
        simp
        omega
      · simp
        omega
  · intro hdl h1
    split
    · split
      · exact absurd ⟨‹le32 entry.data 20 = 0›, ‹le64 entry.data 24 ≠ 0›⟩ hdl
      · simp_all
    · split
      · exact absurd (by omega) h1
      · rfl

/-- C7 witness: a raw entry with `first_cluster = 2` and
`data_length = 5` decodes to exactly those values. -/
theorem cluster_allocation_load_spec_witness :
    ClusterAllocation.load
        ⟨0, 0, [0, 0, 0, 0, 0, 0, 0, 0, 0, 0, 0, 0, 0, 0, 0, 0, 0, 0, 0, 0,
                2, 0, 0, 0, 5, 0, 0, 0, 0, 0, 0, 0]⟩ =
      .ok ⟨2, 5⟩ :=
  (cluster_allocation_load_spec
      ⟨0, 0, [0, 0, 0, 0, 0, 0, 0, 0, 0, 0, 0, 0, 0, 0, 0, 0, 0, 0, 0, 0,
              2, 0, 0, 0, 5, 0, 0, 0, 0, 0, 0, 0]⟩).2.2
    (by decide) (by decide)

/-- C10: `ClusterAllocation::load` imposes no upper bound on
`first_cluster` — whenever the decoded `first_cluster` is `≥ 2` the
decode succeeds, whatever the other bytes hold (the function receives
neither `cluster_count` nor the FAT length, so no heap bound can be
applied at decode time). -/
theorem cluster_allocation_no_upper_bound (entry : RawEntry)
    (h : 2 ≤ le32 entry.data 20) :
    ClusterAllocation.load entry = .ok ⟨le32 entry.data 20, le64 entry.data 24⟩ := by
  simp only [ClusterAllocation.load]
  rw [if_neg (by omega), if_neg (by omega)]

/-- C10 witness: an entry whose `FirstCluster` bytes decode to the
maximal u32 value `0xFFFFFFFF` is accepted with that cluster number. -/
theorem cluster_allocation_no_upper_bound_witness :
    ClusterAllocation.load
        ⟨1, 4, [0, 0, 0, 0, 0, 0, 0, 0, 0, 0, 0, 0, 0, 0, 0, 0, 0, 0, 0, 0,
                255, 255, 255, 255, 7, 0, 0, 0, 0, 0, 0, 0]⟩ =
      .ok ⟨4294967295, 7⟩ :=
  cluster_allocation_no_upper_bound
    ⟨1, 4, [0, 0, 0, 0, 0, 0, 0, 0, 0, 0, 0, 0, 0, 0, 0, 0, 0, 0, 0, 0,
            255, 255, 255, 255, 7, 0, 0, 0, 0, 0, 0, 0]⟩
    (by decide)

/-! ## `StreamEntry::load` (src/entries.rs:192–246) -/

/-- `FileEntryError` (src/entries.rs:385–412).  Positional payloads
(entry index within its cluster, cluster index) are kept; payloads that
only wrap an external I/O cause are dropped, the variant names are
kept. -/
inductive FileEntryError where
  | NoStreamExtension (index cluster : Nat)
  | NoFileName (index cluster : Nat)
  | ReadStreamFailed
  | NotStreamExtension (index cluster : Nat)
  | InvalidStreamExtension (index cluster : Nat)
  | ReadFileNameFailed (i : Nat)
  | NotFileName (index cluster : Nat)
  | WrongFileNames (index cluster : Nat)
  | InvalidFileName (index cluster : Nat)
deriving DecidableEq

/-- `StreamEntry` (src/entries.rs:184–189). -/
structure StreamEntry where
  no_fat_chain : Bool
  name_length : Nat
  valid_data_length : Nat
  alloc : ClusterAllocation
deriving DecidableEq

/-- `StreamEntry::load` (src/entries.rs:192–246): the allocation-possible
flag must be set and `NameLength ≥ 1`; `ValidDataLength` is the LE u64
at offset 8; the cluster allocation is decoded per
`ClusterAllocation::load`; a directory requires
`valid_data_length = data_length`, a file `valid_data_length ≤
data_length`.  Every failure is `InvalidStreamExtension` at the entry's
position. -/
def StreamEntry.load (raw : RawEntry) (attrs : Nat) :
    Except FileEntryError StreamEntry :=
  let data := raw.data
  let general_secondary_flags := data.getD 1 0
  if ¬ SecondaryFlags.allocation_possible general_secondary_flags then
    .error (.InvalidStreamExtension raw.index raw.cluster)
  else
    let name_length := data.getD 3 0
    if name_length < 1 then .error (.InvalidStreamExtension raw.index raw.cluster)
    else
      let valid_data_length := le64 data 8
      match ClusterAllocation.load raw with
      | .error _ => .error (.InvalidStreamExtension raw.index raw.cluster)
      | .ok alloc =>
        if FileAttributes.is_directory attrs then
          if valid_data_length ≠ alloc.data_length then
            .error (.InvalidStreamExtension raw.index raw.cluster)
          else
            .ok ⟨SecondaryFlags.no_fat_chain general_secondary_flags, name_length,
                 valid_data_length, alloc⟩
        else if alloc.data_length < valid_data_length then
          .error (.InvalidStreamExtension raw.index raw.cluster)
        else
          .ok ⟨SecondaryFlags.no_fat_chain general_secondary_flags, name_length,
               valid_data_length, alloc⟩

theorem cluster_allocation_data_length (entry : RawEntry) (a : ClusterAllocation)
    (h : ClusterAllocation.load entry = .ok a) :
    a.data_length = le64 entry.data 24 := by
  simp only [ClusterAllocation.load] at h
  split at h
  · split at h
    · exact absurd h (by simp)
    · cases h; rfl
  · split at h
    · exact absurd h (by simp)
    · cases h; rfl

/-- C6: `StreamEntry::load` rejects (with `InvalidStreamExtension`)
every entry whose preceding file has the directory attribute set while
`valid_data_length ≠ data_length`, and every one with the attribute
clear while `valid_data_length > data_length`; conversely, when the
flag, name-length and allocation checks pass and the respective
relation holds, the load succeeds — the relation alone never causes a
rejection. -/
theorem stream_entry_load_length_policy (raw : RawEntry) (attrs : Nat) :
    (FileAttributes.is_directory attrs = true →
      le64 raw.data 8 ≠ le64 raw.data 24 →
      StreamEntry.load raw attrs = .error (.InvalidStreamExtension raw.index raw.cluster))
    ∧ (FileAttributes.is_directory attrs = false →
      le64 raw.data 24 < le64 raw.data 8 →
      StreamEntry.load raw attrs = .error (.InvalidStreamExtension raw.index raw.cluster))
    ∧ (SecondaryFlags.allocation_possible (raw.data.getD 1 0) = true →
      1 ≤ raw.data.getD 3 0 →
      ∀ a, ClusterAllocation.load raw = .ok a →
      (if FileAttributes.is_directory attrs then le64 raw.data 8 = a.data_length
       else le64 raw.data 8 ≤ a.data_length) →
      StreamEntry.load raw attrs =
        .ok ⟨SecondaryFlags.no_fat_chain (raw.data.getD 1 0), raw.data.getD 3 0,
             le64 raw.data 8, a⟩) := by
  refine ⟨?_, ?_, ?_⟩
  · intro hdir hne
    simp only [StreamEntry.load]
    split
    · rfl
    · split
      · rfl
      · cases hca : ClusterAllocation.load raw with
        | error e => rfl
        | ok a =>
          have hdl := cluster_allocation_data_length raw a hca
          split
          · rfl
          · rename_i alloc hle
            injection hle with h
            subst h
            rw [if_pos (by omega)]
  · intro hdir hlt
    simp only [StreamEntry.load]
    split
    · rfl
    · split
      · rfl
      · cases hca : ClusterAllocation.load raw with
        | error e => rfl
        | ok a =>
          have hdl := cluster_allocation_data_length raw a hca
          split
          · rfl
          · rename_i alloc hle
            injection hle with h
            subst h
            rw [hdir, if_neg (by simp), if_pos (by omega)]
  · intro hflags hname a hca hrel
    simp only [StreamEntry.load]
    rw [if_neg (by simpa using hflags), if_neg (by omega), hca]
    cases hdir : FileAttributes.is_directory attrs with
    | true =>
      rw [hdir] at hrel
      rw [if_pos rfl] at hrel
      split
      · rename_i heq
        exact absurd heq (by simp)
      · rename_i alloc hle
        injection hle with h
        subst h
        rw [if_pos rfl, if_neg (not_ne_iff.mpr hrel)]
    | false =>
      rw [hdir] at hrel
      rw [if_neg (by simp)] at hrel
      split
      · rename_i heq
        exact absurd heq (by simp)
      · rename_i alloc hle
        injection hle with h
        subst h
        rw [if_neg (by simp), if_neg (by omega)]

/-- C6 witness: a stream-extension entry of a non-directory with
`valid_data_length = 0 ≤ data_length = 0`, the allocation-possible flag
set, `NameLength = 1` and `first_cluster = 2` loads successfully. -/
theorem stream_entry_load_length_policy_witness :
    StreamEntry.load
        ⟨2, 3, [192, 1, 0, 1, 0, 0, 0, 0, 0, 0, 0, 0, 0, 0, 0, 0, 0, 0, 0, 0,
                2, 0, 0, 0, 0, 0, 0, 0, 0, 0, 0, 0]⟩ 0 =
      .ok ⟨false, 1, 0, ⟨2, 0⟩⟩ :=
  (stream_entry_load_length_policy
      ⟨2, 3, [192, 1, 0, 1, 0, 0, 0, 0, 0, 0, 0, 0, 0, 0, 0, 0, 0, 0, 0, 0,
              2, 0, 0, 0, 0, 0, 0, 0, 0, 0, 0, 0]⟩ 0).2.2
    (by decide) (by decide) ⟨2, 0⟩ rfl (by decide)

/-! ## `FileEntry::load` (src/entries.rs:84–180)

The name and the per-entry name fragments are represented as lists of
UTF-16 code units; `String::from_utf16` succeeds exactly on well-formed
UTF-16, and on success the re-encoded string is the same code-unit
sequence, so the `String` the source builds is represented by the
concatenation of the consumed code units. -/

/-- Success condition of Rust's `String::from_utf16` (the standard
library function used at src/entries.rs:169): the code-unit sequence
contains no unpaired surrogate — every unit in `0xD800..0xDC00` is
immediately followed by one in `0xDC00..0xE000`, and no unit in
`0xDC00..0xE000` appears unpaired. -/
def utf16WellFormed : List Nat → Bool
  | [] => true
  | [c] => decide (c < 55296 ∨ 57344 ≤ c)
  | c :: c2 :: rest =>
    if c < 55296 ∨ 57344 ≤ c then utf16WellFormed (c2 :: rest)
    else if 56320 ≤ c then false
    else if 56320 ≤ c2 ∧ c2 < 57344 then utf16WellFormed rest
    else false

/-- The code units consumed from one filename entry
(src/entries.rs:158–167): `rawLen` bytes are taken from offset 2
(`rawLen = min 30 need`), giving `rawLen / 2` little-endian u16 values. -/
def chunkUnits (data : List Nat) (rawLen : Nat) : List Nat :=
  (List.range (rawLen / 2)).map fun i =>
    data.getD (2 + 2 * i) 0 + 256 * data.getD (3 + 2 * i) 0

/-- The chunk of code units each filename entry contributes, with
`need` the number of bytes still to consume (`name_length * 2` at the
start, decreasing by `min 30 need` per entry). -/
def chunksOf : Nat → List RawEntry → List (List Nat)
  | _, [] => []
  | need, e :: rest =>
    chunkUnits e.data (min 30 need) :: chunksOf (need - min 30 need) rest

/-- The name-construction loop of `FileEntry::load`
(src/entries.rs:144–173): for each filename entry, reject it if its
`SecondaryFlags` claim allocation, consume `min 30 need` bytes as code
units, decode them with `String::from_utf16` — per entry — and append.
The result is the code-unit sequence of the assembled name. -/
def loadNameLoop : Nat → List RawEntry → Except FileEntryError (List Nat)
  | _, [] => .ok []
  | need, e :: rest =>
    if SecondaryFlags.allocation_possible (e.data.getD 1 0) then
      .error (.InvalidFileName e.index e.cluster)
    else
      let units := chunkUnits e.data (min 30 need)
      if utf16WellFormed units then
        match loadNameLoop (need - min 30 need) rest with
        | .ok tail => .ok (units ++ tail)
        | .error err => .error err
      else .error (.InvalidFileName e.index e.cluster)

/-- The filename-count check plus name loop of `FileEntry::load`
(src/entries.rs:139–173): the number of filename entries must equal
`ceil(name_length / 15)`, computed as `(name_length + 15 - 1) / 15`,
else `WrongFileNames` at the primary entry's position. -/
def assembleName (raw : RawEntry) (name_length : Nat) (names : List RawEntry) :
    Except FileEntryError (List Nat) :=
  if names.length ≠ (name_length + 15 - 1) / 15 then
    .error (.WrongFileNames raw.index raw.cluster)
  else loadNameLoop (name_length * 2) names

/-- The filename-entry reading loop of `FileEntry::load`
(src/entries.rs:122–137): read `name_count` entries from the stream of
upcoming raw entries; each must be a critical secondary of type code 1
(`NotFileName` otherwise); exhaustion of the stream is the reader
failure at position `i`. -/
def readNames (i : Nat) : Nat → List RawEntry → Except FileEntryError (List RawEntry)
  | 0, _ => .ok []
  | _ + 1, [] => .error (.ReadFileNameFailed i)
  | n + 1, e :: rest =>
    if ¬ EntryType.is_critical_secondary (e.data.getD 0 0) 1 then
      .error (.NotFileName e.index e.cluster)
    else
      match readNames (i + 1) n rest with
      | .ok v => .ok (e :: v)
      | .error err => .error err

/-- `FileEntry` (src/entries.rs:77–81); the name is represented by its
UTF-16 code units. -/
structure FileEntry where
  name : List Nat
  attributes : Nat
  stream : StreamEntry

/-- `FileEntry::load` (src/entries.rs:84–180), with the entry reader
modelled by the list of upcoming raw entries: check `SecondaryCount`,
read and decode the stream extension, read the filename entries, check
their count and assemble the name. -/
def FileEntry.load (raw : RawEntry) (rest : List RawEntry) :
    Except FileEntryError FileEntry :=
  let data := raw.data
  let secondary_count := data.getD 1 0
  let attributes := le16 data 4
  if secondary_count < 1 then .error (.NoStreamExtension raw.index raw.cluster)
  else if secondary_count < 2 then .error (.NoFileName raw.index raw.cluster)
  else
    match rest with
    | [] => .error .ReadStreamFailed
    | stream :: rest =>
      if ¬ EntryType.is_critical_secondary (stream.data.getD 0 0) 0 then
        .error (.NotStreamExtension stream.index stream.cluster)
      else
        match StreamEntry.load stream attributes with
        | .error e => .error e
        | .ok streamEntry =>
          match readNames 0 (secondary_count - 1) rest with
          | .error e => .error e
          | .ok names =>
            match assembleName raw streamEntry.name_length names with
            | .error e => .error e
            | .ok name => .ok ⟨name, attributes, streamEntry⟩

theorem chunkUnits_length (data : List Nat) (rawLen : Nat) :
    (chunkUnits data rawLen).length = rawLen / 2 := by
  simp [chunkUnits]

/-- C2 (amended): the name loop succeeds exactly when every filename
entry has the allocation-possible flag clear and every per-entry chunk
is well-formed UTF-16 on its own, and then the name is the
concatenation of the chunks.  (Each chunk is decoded by
`String::from_utf16` separately, so well-formedness of the concatenated
sequence is not enough: a surrogate pair spanning two entries is
rejected.) -/
theorem file_name_decoded_per_entry (es : List RawEntry) :
    ∀ need units, loadNameLoop need es = .ok units ↔
      ((∀ e ∈ es, SecondaryFlags.allocation_possible (e.data.getD 1 0) = false) ∧
        (∀ c ∈ chunksOf need es, utf16WellFormed c = true) ∧
        units = (chunksOf need es).flatten) := by
  induction es with
  | nil =>
    intro need units
    constructor
    · intro h
      have hu : units = [] := by
        have h2 : (.ok [] : Except FileEntryError (List Nat)) = .ok units := by
          simpa [loadNameLoop] using h
        exact (Except.ok.inj h2).symm
      subst hu
      exact ⟨by simp, by simp [chunksOf], by simp [chunksOf]⟩
    · rintro ⟨-, -, rfl⟩
      simp [loadNameLoop, chunksOf]
  | cons e rest ih =>
    intro need units
    simp only [loadNameLoop, chunksOf]
    cases hflag : SecondaryFlags.allocation_possible (e.data.getD 1 0) with
    | true =>
      rw [if_pos rfl]
      constructor
      · intro h
        exact absurd h (by simp)
      · rintro ⟨hall, -, -⟩
        have h1 := hall e (List.mem_cons_self e rest)
        rw [hflag] at h1
        cases h1
    | false =>
      rw [if_neg (by simp)]
      cases hwf : utf16WellFormed (chunkUnits e.data (min 30 need)) with
      | false =>
        rw [if_neg (by simp)]
        constructor
        · intro h
          exact absurd h (by simp)
        · rintro ⟨-, hwfs, -⟩
          have h1 := hwfs (chunkUnits e.data (min 30 need)) (List.mem_cons_self _ _)
          rw [hwf] at h1
          cases h1
      | true =>
        rw [if_pos rfl]
        cases hrec : loadNameLoop (need - min 30 need) rest with
        | error err =>
          constructor
          · intro h
            exact absurd h (by simp)
          · rintro ⟨hall, hwfs, rfl⟩
            have hok : loadNameLoop (need - min 30 need) rest =
                .ok ((chunksOf (need - min 30 need) rest).flatten) := by
              rw [ih]
              exact ⟨fun x hx => hall x (List.mem_cons_of_mem e hx),
                     fun c hc => hwfs c (List.mem_cons_of_mem _ hc), rfl⟩
            rw [hrec] at hok
            cases hok
        | ok tail =>
          obtain ⟨hallr, hwfr, htail⟩ := (ih (need - min 30 need) tail).mp hrec
          constructor
          · intro h
            have hu : units = chunkUnits e.data (min 30 need) ++ tail :=
              (Except.ok.inj h).symm
            refine ⟨?_, ?_, ?_⟩
            · intro x hx
              rcases List.mem_cons.mp hx with hx | hx
              · rw [hx]; exact hflag
              · exact hallr x hx
            · intro c hc
              rcases List.mem_cons.mp hc with hc | hc
              · rw [hc]; exact hwf
              · exact hwfr c hc
            · rw [hu, List.flatten_cons, htail]
          · rintro ⟨-, -, rfl⟩
            rw [List.flatten_cons, ← htail]

/-- A filename entry carrying one code unit `a` (U+0061). -/
def nameEntryA : RawEntry :=
  ⟨2, 5, [193, 0, 97, 0, 0, 0, 0, 0, 0, 0, 0, 0, 0, 0, 0, 0, 0, 0, 0, 0,
          0, 0, 0, 0, 0, 0, 0, 0, 0, 0, 0, 0]⟩

/-- C2 witness: a single filename entry with the single code unit `a`
assembles to that unit. -/
theorem file_name_decoded_per_entry_witness :
    loadNameLoop 2 [nameEntryA] = .ok [97] :=
  (file_name_decoded_per_entry [nameEntryA] 2 [97]).mpr
    ⟨by decide, by decide, by decide⟩

/-- A primary file entry with `SecondaryCount = 3` and clear
attributes. -/
def cexFile : RawEntry :=
  ⟨4, 2, [133, 3, 0, 0, 0, 0, 0, 0, 0, 0, 0, 0, 0, 0, 0, 0, 0, 0, 0, 0,
          0, 0, 0, 0, 0, 0, 0, 0, 0, 0, 0, 0]⟩

/-- A stream-extension entry with `NameLength = 16`,
`valid_data_length = data_length = 0` and `first_cluster = 2`. -/
def cexStream : RawEntry :=
  ⟨5, 2, [192, 1, 0, 16, 0, 0, 0, 0, 0, 0, 0, 0, 0, 0, 0, 0, 0, 0, 0, 0,
          2, 0, 0, 0, 0, 0, 0, 0, 0, 0, 0, 0]⟩

/-- A filename entry whose 15 code units are fourteen `a`s and the high
surrogate `0xD800`. -/
def cexName1 : RawEntry :=
  ⟨0, 2, [193, 0, 97, 0, 97, 0, 97, 0, 97, 0, 97, 0, 97, 0, 97, 0, 97, 0,
          97, 0, 97, 0, 97, 0, 97, 0, 97, 0, 97, 0, 0, 216]⟩

/-- A filename entry whose single consumed code unit is the low
surrogate `0xDC00`. -/
def cexName2 : RawEntry :=
  ⟨1, 2, [193, 0, 0, 220, 0, 0, 0, 0, 0, 0, 0, 0, 0, 0, 0, 0, 0, 0, 0, 0,
          0, 0, 0, 0, 0, 0, 0, 0, 0, 0, 0, 0]⟩

/-- C2 counterexample: an entry set whose `name_length = 16` code units
form well-formed UTF-16 (a surrogate pair spans the two filename
entries), yet `FileEntry::load` rejects it with `InvalidFileName`,
because the first entry's 15-unit chunk — ending in the unpaired high
surrogate — is decoded on its own. -/
theorem file_name_split_surrogate_rejected :
    utf16WellFormed ((chunksOf (16 * 2) [cexName1, cexName2]).flatten) = true ∧
    FileEntry.load cexFile [cexStream, cexName1, cexName2] =
      .error (.InvalidFileName 0 2) :=
  ⟨by decide, rfl⟩

theorem readNames_length :
    ∀ (n i : Nat) (es v : List RawEntry), readNames i n es = .ok v → v.length = n := by
  intro n
  induction n with
  | zero =>
    intro i es v h
    simp only [readNames] at h
    rw [← Except.ok.inj h]
    rfl
  | succ k ihk =>
    intro i es v h
    cases es with
    | nil => exact absurd h (by simp [readNames])
    | cons e rest =>
      simp only [readNames] at h
      split at h
      · exact absurd h (by simp)
      · cases hrec : readNames (i + 1) k rest with
        | error err =>
          rw [hrec] at h
          exact absurd h (by simp)
        | ok v2 =>
          rw [hrec] at h
          have h2 : e :: v2 = v := by simpa using h
          rw [← h2, List.length_cons, ihk (i + 1) rest v2 hrec]

theorem loadNameLoop_length (es : List RawEntry) :
    ∀ need units, 2 ∣ need → loadNameLoop need es = .ok units →
      2 * units.length = min need (30 * es.length) := by
  induction es with
  | nil =>
    intro need units _ h
    have h2 : ([] : List Nat) = units := by simpa [loadNameLoop] using h
    simp [← h2]
  | cons e rest ih =>
    intro need units hdvd h
    simp only [loadNameLoop] at h
    split at h
    · exact absurd h (by simp)
    · split at h
      · cases hrec : loadNameLoop (need - min 30 need) rest with
        | error err =>
          rw [hrec] at h
          exact absurd h (by simp)
        | ok tail =>
          rw [hrec] at h
          have h2 : chunkUnits e.data (min 30 need) ++ tail = units := by simpa using h
          have ht := ih (need - min 30 need) tail (by omega) hrec
          rw [← h2, List.length_append, chunkUnits_length]
          simp only [List.length_cons]
          omega
      · exact absurd h (by simp)

theorem assembleName_ok (raw : RawEntry) (nl : Nat) (names : List RawEntry)
    (units : List Nat) (h : assembleName raw nl names = .ok units) :
    names.length = (nl + 15 - 1) / 15 ∧ loadNameLoop (nl * 2) names = .ok units := by
  unfold assembleName at h
  split at h
  · exact absurd h (by simp)
  · rename_i hcount
    push_neg at hcount
    exact ⟨hcount, h⟩

/-- C5: every file entry `FileEntry::load` produces consumed exactly
`SecondaryCount − 1` filename entries, that count equals
`ceil(name_length / 15)`, and the decoded name has exactly
`name_length` UTF-16 code units; and whenever the filename-entry count
differs from `ceil(name_length / 15)`, assembly fails with
`WrongFileNames` at the primary entry's position. -/
theorem file_entry_name_counts :
    (∀ raw rest fe, FileEntry.load raw rest = .ok fe →
      raw.data.getD 1 0 - 1 = (fe.stream.name_length + 15 - 1) / 15 ∧
      fe.name.length = fe.stream.name_length)
    ∧ (∀ (raw : RawEntry) (nl : Nat) (names : List RawEntry),
        names.length ≠ (nl + 15 - 1) / 15 →
        assembleName raw nl names = .error (.WrongFileNames raw.index raw.cluster)) := by
  constructor
  · intro raw rest fe h
    simp only [FileEntry.load] at h
    split at h
    · exact absurd h (by simp)
    · split at h
      · exact absurd h (by simp)
      · split at h
        · exact absurd h (by simp)
        · rename_i stream rest2
          split at h
          · exact absurd h (by simp)
          · split at h
            · exact absurd h (by simp)
            · rename_i streamEntry hstream
              split at h
              · exact absurd h (by simp)
              · rename_i names hnames
                split at h
                · exact absurd h (by simp)
                · rename_i units hassemble
                  have hfe : FileEntry.mk units (le16 raw.data 4) streamEntry = fe :=
                    Except.ok.inj h
                  obtain ⟨hcount, hloop⟩ :=
                    assembleName_ok raw streamEntry.name_length names units hassemble
                  have hlen := readNames_length (raw.data.getD 1 0 - 1) 0 rest2 names hnames
                  have hul := loadNameLoop_length names (streamEntry.name_length * 2)
                    units ⟨streamEntry.name_length, by ring⟩ hloop
                  rw [← hfe]
                  constructor
                  · rw [← hlen, hcount]
                  · show units.length = streamEntry.name_length
                    rw [hcount] at hul
                    omega
  · intro raw nl names hcount
    unfold assembleName
    rw [if_pos hcount]

/-- A primary file entry with `SecondaryCount = 2` and clear
attributes. -/
def fileOkRaw : RawEntry :=
  ⟨0, 5, [133, 2, 0, 0, 0, 0, 0, 0, 0, 0, 0, 0, 0, 0, 0, 0, 0, 0, 0, 0,
          0, 0, 0, 0, 0, 0, 0, 0, 0, 0, 0, 0]⟩

/-- A stream-extension entry with `NameLength = 1`,
`valid_data_length = data_length = 0` and `first_cluster = 2`. -/
def fileOkStream : RawEntry :=
  ⟨1, 5, [192, 1, 0, 1, 0, 0, 0, 0, 0, 0, 0, 0, 0, 0, 0, 0, 0, 0, 0, 0,
          2, 0, 0, 0, 0, 0, 0, 0, 0, 0, 0, 0]⟩

/-- C5 witness: a concrete one-filename entry set loads with one
filename entry (`SecondaryCount − 1 = 1 = ceil(1/15)`) and a one-unit
name. -/
theorem file_entry_name_counts_witness :
    fileOkRaw.data.getD 1 0 - 1 =
        ((⟨[97], 0, ⟨false, 1, 0, ⟨2, 0⟩⟩⟩ : FileEntry).stream.name_length + 15 - 1) / 15 ∧
      (⟨[97], 0, ⟨false, 1, 0, ⟨2, 0⟩⟩⟩ : FileEntry).name.length =
        (⟨[97], 0, ⟨false, 1, 0, ⟨2, 0⟩⟩⟩ : FileEntry).stream.name_length :=
  file_entry_name_counts.1 fileOkRaw [fileOkStream, nameEntryA]
    ⟨[97], 0, ⟨false, 1, 0, ⟨2, 0⟩⟩⟩ rfl

/-! ## `src/lib.rs`: the allocation-bitmap arm of `Root::open` -/

/-- The `OpenError` variants (src/lib.rs:302–363) reachable from the
allocation-bitmap arm of the dispatch. -/
inductive OpenError where
  | TooManyAllocationBitmap
  | WrongAllocationBitmap
  | ReadClusterAllocationFailed (index cluster : Nat) (e : ClusterAllocationError)
deriving DecidableEq

/-- The `(critical, 1)` allocation-bitmap arm of the `Root::open`
dispatch (src/lib.rs:132–160), acting on the
`allocation_bitmaps : [Option<ClusterAllocation>; 2]` state: a third
occurrence is `TooManyAllocationBitmap`, the target slot is 1 when
slot 0 is taken and 0 otherwise, `BitmapFlags & 1` must equal the slot
index, and the decoded allocation is stored in that slot. -/
def bitmapStep (slots : Option ClusterAllocation × Option ClusterAllocation)
    (entry : RawEntry) :
    Except OpenError (Option ClusterAllocation × Option ClusterAllocation) :=
  if slots.2.isSome then .error .TooManyAllocationBitmap
  else
    let index : Nat := if slots.1.isSome then 1 else 0
    let bitmap_flags := entry.data.getD 1 0
    if bitmap_flags &&& 1 ≠ index then .error .WrongAllocationBitmap
    else
      match ClusterAllocation.load entry with
      | .ok v =>
        if slots.1.isSome then .ok (slots.1, some v) else .ok (some v, slots.2)
      | .error e => .error (.ReadClusterAllocationFailed entry.index entry.cluster e)

/-- C8: allocation-bitmap entries go to slot 0 first and then slot 1 —
with both slots empty the entry is stored in slot 0 and must carry
`bitmap_flags & 1 = 0`, with slot 0 taken it is stored in slot 1 and
must carry `bitmap_flags & 1 = 1` (`WrongAllocationBitmap` otherwise) —
and with slot 1 taken (a third occurrence) the result is
`TooManyAllocationBitmap`. -/
theorem bitmap_assignment_policy (entry : RawEntry) :
    (∀ s0 b, bitmapStep (s0, some b) entry = .error .TooManyAllocationBitmap)
    ∧ (entry.data.getD 1 0 &&& 1 = 0 →
        ∀ v, ClusterAllocation.load entry = .ok v →
        bitmapStep (none, none) entry = .ok (some v, none))
    ∧ (entry.data.getD 1 0 &&& 1 ≠ 0 →
        bitmapStep (none, none) entry = .error .WrongAllocationBitmap)
    ∧ (∀ a, entry.data.getD 1 0 &&& 1 = 1 →
        ∀ v, ClusterAllocation.load entry = .ok v →
        bitmapStep (some a, none) entry = .ok (some a, some v))
    ∧ (∀ a, entry.data.getD 1 0 &&& 1 ≠ 1 →
        bitmapStep (some a, none) entry = .error .WrongAllocationBitmap) := by
  refine ⟨?_, ?_, ?_, ?_, ?_⟩
  · intro s0 b
    simp [bitmapStep]
  · intro hflags v hv
    simp at hflags
    simp [bitmapStep, hflags, hv]
  · intro hflags
    simp at hflags
    simp [bitmapStep, hflags]
  · intro a hflags v hv
    simp at hflags
    simp [bitmapStep, hflags, hv]
  · intro a hflags
    simp at hflags
    simp [bitmapStep, hflags]

/-- C8 witness: with both slots empty, a bitmap entry with
`BitmapFlags = 0` and `first_cluster = 2`, `data_length = 0` lands in
slot 0. -/
theorem bitmap_assignment_policy_witness :
    bitmapStep (none, none)
        ⟨0, 4, [129, 0, 0, 0, 0, 0, 0, 0, 0, 0, 0, 0, 0, 0, 0, 0, 0, 0, 0, 0,
                2, 0, 0, 0, 0, 0, 0, 0, 0, 0, 0, 0]⟩ =
      .ok (some ⟨2, 0⟩, none) :=
  (bitmap_assignment_policy
      ⟨0, 4, [129, 0, 0, 0, 0, 0, 0, 0, 0, 0, 0, 0, 0, 0, 0, 0, 0, 0, 0, 0,
              2, 0, 0, 0, 0, 0, 0, 0, 0, 0, 0, 0]⟩).2.1
    (by decide) ⟨2, 0⟩ rfl

/-! ## `src/fat.rs`: the checked offset arithmetic of `Fat::load` -/

/-- `Params` (src/param.rs is not among the sources; fields and widths
as the spec's data model — u64 sector counts, u32-derived cluster
fields — all represented as `Nat`, decoded at src/lib.rs:46–82). -/
structure Params where
  fat_offset : Nat
  fat_length : Nat
  cluster_heap_offset : Nat
  cluster_count : Nat
  first_cluster_of_root_directory : Nat
  volume_flags : Nat
  bytes_per_sector : Nat
  sectors_per_cluster : Nat
  number_of_fats : Nat

/-- u64 `checked_mul`: the product, unless it overflows 64 bits. -/
def checkedMul64 (a b : Nat) : Option Nat :=
  if a * b < 2 ^ 64 then some (a * b) else none

/-- u64 `checked_add`: the sum, unless it overflows 64 bits. -/
def checkedAdd64 (a b : Nat) : Option Nat :=
  if a + b < 2 ^ 64 then some (a + b) else none

/-- The `LoadError` variants of `Fat::load` (src/fat.rs:87–97) other
than the external I/O failure. -/
inductive FatLoadError where
  | InvalidFatLength
  | InvalidFatOffset
deriving DecidableEq

/-- The checked offset arithmetic of `Fat::load` (src/fat.rs:17–28):
`fat_length.checked_mul(index)` (`InvalidFatLength` on overflow), plus
`fat_offset` (`InvalidFatOffset` on overflow), times `bytes_per_sector`
(`InvalidFatOffset` on overflow), giving the byte offset of the FAT
copy to read. -/
def fatLoadOffset (p : Params) (index : Nat) : Except FatLoadError Nat :=
  match checkedMul64 p.fat_length index with
  | none => .error .InvalidFatLength
  | some v =>
    match checkedAdd64 p.fat_offset v with
    | none => .error .InvalidFatOffset
    | some sector =>
      match checkedMul64 sector p.bytes_per_sector with
      | none => .error .InvalidFatOffset
      | some offset => .ok offset

/-- Modelled from the spec: `volume_flags.active_fat()` is bit 0 of
`VolumeFlags` (spec §4.1; `src/param.rs`, which defines it, is not
among the sources). -/
def activeFat (volume_flags : Nat) : Nat :=
  volume_flags &&& 1

/-- C9: the active-FAT index is a single bit, and for any index ≤ 1 —
hence for every index `Root::open` can pass — the
`fat_length × index` multiplication cannot overflow a u64 when
`fat_length` is one (`fat_length` being a u64 value), so `Fat::load`
never fails with `InvalidFatLength`. -/
theorem fat_load_length_error_unreachable (p : Params) (flags : Nat)
    (hlen : p.fat_length < 2 ^ 64) :
    activeFat flags ≤ 1 ∧
      ∀ index, index ≤ 1 → fatLoadOffset p index ≠ .error .InvalidFatLength := by
  constructor
  · exact Nat.and_le_right
  · intro index hidx h
    have hmul : checkedMul64 p.fat_length index = some (p.fat_length * index) := by
      unfold checkedMul64
      rw [if_pos]
      calc p.fat_length * index ≤ p.fat_length * 1 :=
            Nat.mul_le_mul_left p.fat_length hidx
        _ < 2 ^ 64 := by rw [Nat.mul_one]; exact hlen
    unfold fatLoadOffset at h
    split at h
    · rename_i hm
      rw [hmul] at hm
      cases hm
    · split at h
      · exact absurd h (by simp)
      · split at h
        · exact absurd h (by simp)
        · exact absurd h (by simp)

/-- C9 witness: concrete parameters with `fat_length = 1`; neither FAT
index 0 nor 1 can produce `InvalidFatLength`. -/
theorem fat_load_length_error_unreachable_witness :
    activeFat 3 ≤ 1 ∧
      ∀ index, index ≤ 1 →
        fatLoadOffset ⟨24, 1, 0, 8, 4, 3, 512, 1, 1⟩ index ≠ .error .InvalidFatLength :=
  fat_load_length_error_unreachable ⟨24, 1, 0, 8, 4, 3, 512, 1, 1⟩ 3 (by decide)

end Exfat
